import Mathlib

/-!
Shallow embedding of the constraint-satisfaction game engine of
`the-sorter` (`src/game.py`, class `LoveLiveGame`) and the session
serialization helpers of `src/app.py`, together with theorems settling
the specification claims about them.

Python dictionaries (`self.lives`, `self.songs`) are embedded as a total
lookup function plus the list of keys; Python sets (`possible_live_ids`,
`guessed_song_ids`, `guessed_live_ids`) are embedded as `Finset String`;
`random.choice` is embedded as an oracle parameter carrying the value the
random generator would have produced; Python floats are idealised as `ℝ`.
-/

namespace TheSorter

/-- A live record from `game_data.json`: `{"name": …, "song_ids": […], "artist_ids": […]}`. -/
structure Live where
  name : String
  song_ids : List String
  artist_ids : List String
deriving DecidableEq, Repr

/-- A song record: `{"name": …, "artist_ids": […]}`. -/
structure Song where
  name : String
  artist_ids : List String
deriving DecidableEq, Repr

/-- The immutable catalogue loaded in `LoveLiveGame.__init__`:
`self.lives` / `self.songs` are dicts, embedded as key list + total lookup;
`self.live_ids`, `self.song_ids`, `self.artist_ids` are the key lists. -/
structure Catalogue where
  live_ids : List String
  song_ids : List String
  artist_ids : List String
  lives : String → Live
  songs : String → Song

/-- The mutable session fields of `LoveLiveGame`. `target_live` is omitted:
in the source it is always `self.lives[self.target_live_id]`, a cached
lookup re-derivable from `target_live_id`. History entries are
`(song_id, artist_id, feedback)` triples with feedback in `ℤ`. -/
structure Session where
  target_live_id : String
  possible_live_ids : Finset String
  guessed_song_ids : Finset String
  guessed_live_ids : Finset String
  history : List (String × String × ℤ)
deriving DecidableEq

/-- The feedback computation inlined in `guess_song` (game.py lines 62-70):
`0` song not in live, `1` song in live but artist not, `2` both in live. -/
def score_feedback (live : Live) (song_id artist_id : String) : ℤ :=
  if song_id ∈ live.song_ids then
    if artist_id ∈ live.artist_ids then 2 else 1
  else 0

/-- `LoveLiveGame.guess_song` (game.py lines 49-73). Returns the updated
session and the feedback code; `-1` and an unchanged session when the song
id is not a catalogue key. -/
def Session.guess_song (cat : Catalogue) (g : Session) (song_id artist_id : String) :
    Session × ℤ :=
  if song_id ∉ cat.song_ids then (g, -1)
  else
    let feedback := score_feedback (cat.lives g.target_live_id) song_id artist_id
    ({ g with
        guessed_song_ids := insert song_id g.guessed_song_ids,
        history := g.history ++ [(song_id, artist_id, feedback)] },
     feedback)

/-- The per-live removal test of `prune_candidates` (game.py lines 121-143),
written exactly in the source's separate-condition form. -/
def prune_removes (cat : Catalogue) (song_id artist_id : String) (feedback : ℤ)
    (lid : String) : Bool :=
  let live := cat.lives lid
  let has_song := decide (song_id ∈ live.song_ids)
  let has_artist := decide (artist_id ∈ live.artist_ids)
  if feedback = 0 then has_song
  else if feedback = 1 then !has_song || has_artist
  else if feedback = 2 then !has_song || !has_artist
  else false

/-- The spec's "simulate-and-compare" pruning rule (spec §4.3): remove a
live iff the feedback it would itself have produced for this guess differs
from the observed feedback. Stated from the spec's words, for comparison
with `prune_removes` which is taken from the source. -/
def prune_removes_simulate (cat : Catalogue) (song_id artist_id : String) (feedback : ℤ)
    (lid : String) : Prop :=
  score_feedback (cat.lives lid) song_id artist_id ≠ feedback

/-- `LoveLiveGame.prune_candidates` (game.py lines 115-146): collect the
inconsistent candidates into `to_remove`, subtract, return remaining count. -/
def Session.prune_candidates (cat : Catalogue) (g : Session)
    (song_id artist_id : String) (feedback : ℤ) : Session × ℕ :=
  let to_remove := g.possible_live_ids.filter
    (fun lid => prune_removes cat song_id artist_id feedback lid = true)
  let remaining := g.possible_live_ids \ to_remove
  ({ g with possible_live_ids := remaining }, remaining.card)

/-- `LoveLiveGame.guess_live` (game.py lines 148-150). -/
def Session.guess_live (g : Session) (live_id : String) : Session × Bool :=
  ({ g with guessed_live_ids := insert live_id g.guessed_live_ids },
   live_id == g.target_live_id)

/-- `LoveLiveGame.start_game` (game.py lines 34-47). `target_id` is the
optional argument (`none` for Python `None`); `rand_pick` is the value
`random.choice(self.live_ids)` would return, passed as an oracle parameter.
Python truthiness of a string argument is `≠ ""`. All mutable fields are
reset, so the previous session state does not appear. -/
def start_game (cat : Catalogue) (target_id : Option String) (rand_pick : String) :
    Session × String :=
  let t := match target_id with
    | some tid => if tid ≠ "" ∧ tid ∈ cat.live_ids then tid else rand_pick
    | none => rand_pick
  ({ target_live_id := t,
     possible_live_ids := cat.live_ids.toFinset,
     guessed_song_ids := ∅,
     guessed_live_ids := ∅,
     history := [] }, t)

/-- The `matched` list of `guess_song_only` (game.py lines 92-99): the
live's artists that are credited on the guessed song — Python's
`list(live_artists.intersection(song_artists))` embedded as the live's
artist list filtered to the song's artists — falling back to the song's
own artist list when that intersection is empty. -/
def matched_artists (cat : Catalogue) (target : Live) (song_id : String) : List String :=
  let matched0 := target.artist_ids.filter
    (fun a => decide (a ∈ (cat.songs song_id).artist_ids))
  if matched0 = [] then (cat.songs song_id).artist_ids else matched0

/-- `LoveLiveGame.guess_song_only` (game.py lines 75-113). The Python
`matched[0] if matched else self.artist_ids[0]` becomes `headD` with the
catalogue's first artist id as fallback. -/
def Session.guess_song_only (cat : Catalogue) (g : Session) (song_id : String) :
    Session × (Bool × List String) :=
  if song_id ∉ cat.song_ids then (g, (false, []))
  else
    let target := cat.lives g.target_live_id
    if song_id ∈ target.song_ids then
      let matched := matched_artists cat target song_id
      let aid := matched.headD (cat.artist_ids.headD "")
      ({ g with
          guessed_song_ids := insert song_id g.guessed_song_ids,
          history := g.history ++ [(song_id, aid, 2)] },
       (true, matched))
    else
      let aid := cat.artist_ids.headD ""
      ({ g with
          guessed_song_ids := insert song_id g.guessed_song_ids,
          history := g.history ++ [(song_id, aid, 0)] },
       (false, []))

/-- `serialize_game` (app.py lines 15-22): the session snapshot with the
sets rendered as lists. -/
structure GameState where
  target_live_id : String
  possible_live_ids : List String
  guessed_song_ids : List String
  guessed_live_ids : List String
  history : List (String × String × ℤ)
deriving DecidableEq

/-- `serialize_game` (app.py lines 15-22). Python's `list(set)` emits the
set's elements in an arbitrary order; it is determinised here as the
lexicographically sorted element list, which represents the same set. -/
def serialize_game (g : Session) : GameState :=
  { target_live_id := g.target_live_id,
    possible_live_ids := g.possible_live_ids.sort (· ≤ ·),
    guessed_song_ids := g.guessed_song_ids.sort (· ≤ ·),
    guessed_live_ids := g.guessed_live_ids.sort (· ≤ ·),
    history := g.history }

/-- `deserialize_game` (app.py lines 24-36) on a non-empty state dict (a
serialized session is always a non-empty dict, so the `if not state`
fallback never fires on a round trip): rebuild the sets from the lists and
restore the remaining fields. -/
def deserialize_game (state : GameState) : Session :=
  { target_live_id := state.target_live_id,
    possible_live_ids := state.possible_live_ids.toFinset,
    guessed_song_ids := state.guessed_song_ids.toFinset,
    guessed_live_ids := state.guessed_live_ids.toFinset,
    history := state.history }

/-- `LoveLiveGame.calculate_entropy` (game.py lines 177-209), with Python
floats idealised as real numbers: `0` when at most one candidate remains,
otherwise the guarded binary-entropy sum over the song-present /
song-absent split of the candidate set. -/
noncomputable def Session.calculate_entropy (cat : Catalogue) (g : Session)
    (song_id : String) : ℝ :=
  let candidate_count := g.possible_live_ids.card
  if candidate_count ≤ 1 then 0
  else
    let yes_count := (g.possible_live_ids.filter
      (fun lid => song_id ∈ (cat.lives lid).song_ids)).card
    let no_count := candidate_count - yes_count
    let p_yes : ℝ := (yes_count : ℝ) / (candidate_count : ℝ)
    let p_no : ℝ := (no_count : ℝ) / (candidate_count : ℝ)
    (if 0 < p_yes then -(p_yes * Real.logb 2 p_yes) else 0)
      + (if 0 < p_no then -(p_no * Real.logb 2 p_no) else 0)

/-- The number of candidate lives whose setlist contains `song_id`
(`yes_count` in game.py lines 193-196). -/
def Session.yes_count (cat : Catalogue) (g : Session) (song_id : String) : ℕ :=
  (g.possible_live_ids.filter (fun lid => song_id ∈ (cat.lives lid).song_ids)).card

/-- `relevant_songs` of `get_best_moves` (game.py lines 225-227): the union
of the setlists of the remaining candidate lives. -/
def Session.relevant_songs (cat : Catalogue) (g : Session) : Finset String :=
  g.possible_live_ids.biUnion (fun lid => (cat.lives lid).song_ids.toFinset)

/-- The descending-score order used by `scores.sort(key=…, reverse=True)`. -/
def moveLE (a b : String × ℝ) : Prop := b.2 ≤ a.2

noncomputable instance : DecidableRel moveLE := fun a b => Real.decidableLE b.2 a.2

instance : IsTotal (String × ℝ) moveLE := ⟨fun a b => le_total b.2 a.2⟩

instance : IsTrans (String × ℝ) moveLE := ⟨fun _ _ _ h h2 => le_trans h2 h⟩

/-- `LoveLiveGame.get_best_moves` (game.py lines 211-237): score every
relevant, not-yet-guessed song by `calculate_entropy`, sort descending,
return the first `top_k`. The Python iteration over the `relevant_songs`
set is in arbitrary order, determinised here lexicographically; the
descending sort is then applied as in the source. -/
noncomputable def Session.get_best_moves (cat : Catalogue) (g : Session)
    (top_k : ℕ) : List (String × ℝ) :=
  let scores := ((g.relevant_songs cat).filter
      (fun sid => sid ∉ g.guessed_song_ids)).sort (· ≤ ·)
    |>.map (fun sid => (sid, g.calculate_entropy cat sid))
  (scores.insertionSort moveLE).take top_k

/-! ### Concrete test fixtures, used by the witness theorems -/

/-- A small concrete catalogue (shape of spec §8's three-live scenario). -/
def testCat : Catalogue :=
  { live_ids := ["L1", "L2", "L3"]
    song_ids := ["A", "B", "C"]
    artist_ids := ["X", "Y"]
    lives := fun lid =>
      if lid = "L1" then ⟨"Live 1", ["A", "B"], ["X"]⟩
      else if lid = "L2" then ⟨"Live 2", ["B", "C"], ["Y"]⟩
      else ⟨"Live 3", ["C"], ["X", "Y"]⟩
    songs := fun sid =>
      if sid = "A" then ⟨"Song A", ["X"]⟩
      else if sid = "B" then ⟨"Song B", ["X", "Y"]⟩
      else ⟨"Song C", ["Y"]⟩ }

/-- A freshly started session on `testCat` with target `L1`. -/
def testSession : Session :=
  { target_live_id := "L1",
    possible_live_ids := {"L1", "L2", "L3"},
    guessed_song_ids := ∅,
    guessed_live_ids := ∅,
    history := [] }

/-! ### Helper lemmas -/

/-- When the guessed song is a catalogue key, the feedback returned by
`guess_song` is the inlined scoring of the target live. -/
theorem guess_song_snd (cat : Catalogue) (g : Session) (song_id artist_id : String)
    (h : song_id ∈ cat.song_ids) :
    (g.guess_song cat song_id artist_id).2
      = score_feedback (cat.lives g.target_live_id) song_id artist_id := by
  simp [Session.guess_song, h]

/-- The target live itself is never flagged for removal when pruning with
the feedback that `guess_song` just returned for the same guess. -/
theorem prune_removes_target_false (cat : Catalogue) (g : Session)
    (song_id artist_id : String) :
    prune_removes cat song_id artist_id (g.guess_song cat song_id artist_id).2
      g.target_live_id = false := by
  by_cases hk : song_id ∈ cat.song_ids
  · rw [guess_song_snd cat g song_id artist_id hk]
    by_cases hs : song_id ∈ (cat.lives g.target_live_id).song_ids <;>
      by_cases ha : artist_id ∈ (cat.lives g.target_live_id).artist_ids <;>
      simp [prune_removes, score_feedback, hs, ha]
  · have : (g.guess_song cat song_id artist_id).2 = -1 := by
      simp [Session.guess_song, hk]
    rw [this]
    simp [prune_removes]

/-! ### Claims -/

/-- C1: pruning with the feedback that `guess_song` returned for the same
guess against the fixed target yields a subset of the previous candidate
set (so its size never increases), and the target live id, when present
before the prune, is still present afterwards. -/
theorem prune_candidates_sound (cat : Catalogue) (g : Session) (song_id artist_id : String)
    (h : g.target_live_id ∈ g.possible_live_ids) :
    ((g.prune_candidates cat song_id artist_id
        (g.guess_song cat song_id artist_id).2).1.possible_live_ids
      ⊆ g.possible_live_ids) ∧
    ((g.prune_candidates cat song_id artist_id
        (g.guess_song cat song_id artist_id).2).1.possible_live_ids.card
      ≤ g.possible_live_ids.card) ∧
    g.target_live_id ∈ (g.prune_candidates cat song_id artist_id
        (g.guess_song cat song_id artist_id).2).1.possible_live_ids := by
  have hsub : (g.prune_candidates cat song_id artist_id
      (g.guess_song cat song_id artist_id).2).1.possible_live_ids
      ⊆ g.possible_live_ids := Finset.sdiff_subset
  refine ⟨hsub, Finset.card_le_card hsub, ?_⟩
  simp only [Session.prune_candidates, Finset.mem_sdiff, Finset.mem_filter]
  exact ⟨h, fun hc => by simpa [prune_removes_target_false cat g song_id artist_id] using hc.2⟩

/-- C1 witness: a concrete session where the target survives a full
guess-then-prune round. -/
theorem prune_candidates_sound_witness :
    ("L1" : String) ∈ testSession.possible_live_ids ∧
    "L1" ∈ (testSession.prune_candidates testCat "A" "X"
        (testSession.guess_song testCat "A" "X").2).1.possible_live_ids := by
  have h : ("L1" : String) ∈ testSession.possible_live_ids := by decide
  exact ⟨h, (prune_candidates_sound testCat testSession "A" "X" h).2.2⟩

/-- C2: for observed feedback in `{0, 1, 2}`, the pruner's
separate-condition removal test removes a live exactly when the feedback
that live would itself have produced under the Oracle's scoring rules
differs from the observed feedback, and consequently `prune_candidates`
keeps exactly the candidates whose simulated feedback equals the observed
one. -/
theorem prune_removes_iff_simulate (cat : Catalogue) (g : Session)
    (song_id artist_id : String) (feedback : ℤ) (lid : String)
    (h : feedback = 0 ∨ feedback = 1 ∨ feedback = 2) :
    (prune_removes cat song_id artist_id feedback lid = true
      ↔ prune_removes_simulate cat song_id artist_id feedback lid) ∧
    (g.prune_candidates cat song_id artist_id feedback).1.possible_live_ids
      = g.possible_live_ids.filter
          (fun l => score_feedback (cat.lives l) song_id artist_id = feedback) := by
  have key : ∀ l : String, (prune_removes cat song_id artist_id feedback l = true
      ↔ prune_removes_simulate cat song_id artist_id feedback l) := by
    intro l
    rcases h with rfl | rfl | rfl <;>
      by_cases hs : song_id ∈ (cat.lives l).song_ids <;>
      by_cases ha : artist_id ∈ (cat.lives l).artist_ids <;>
      simp [prune_removes, prune_removes_simulate, score_feedback, hs, ha]
  refine ⟨key lid, ?_⟩
  simp only [Session.prune_candidates]
  rw [← Finset.filter_not]
  apply Finset.filter_congr
  intro l _
  have := key l
  simp only [prune_removes_simulate] at this
  constructor
  · intro hl
    by_contra hne
    exact (by simpa [hl] using this.2 hne)
  · intro hl
    simp [this, hl]

/-- C2 witness: concrete instance with feedback 1. -/
theorem prune_removes_iff_simulate_witness :
    (prune_removes testCat "A" "Y" 1 "L1" = true
      ↔ prune_removes_simulate testCat "A" "Y" 1 "L1") ∧
    (testSession.prune_candidates testCat "A" "Y" 1).1.possible_live_ids
      = testSession.possible_live_ids.filter
          (fun l => score_feedback (testCat.lives l) "A" "Y" = 1) :=
  prune_removes_iff_simulate testCat testSession "A" "Y" 1 "L1" (Or.inr (Or.inl rfl))

/-- C3: for a catalogue song, `guess_song` scores `0` when the song is not
in the target's setlist, `2` when both the song is in the setlist and the
artist is in the live's aggregated artist set, and `1` otherwise; the
artist test is against the live's `artist_ids`, not the song's own
credits. -/
theorem guess_song_oracle (cat : Catalogue) (g : Session) (song_id artist_id : String)
    (h : song_id ∈ cat.song_ids) :
    (song_id ∉ (cat.lives g.target_live_id).song_ids
      → (g.guess_song cat song_id artist_id).2 = 0) ∧
    (song_id ∈ (cat.lives g.target_live_id).song_ids
      → artist_id ∈ (cat.lives g.target_live_id).artist_ids
      → (g.guess_song cat song_id artist_id).2 = 2) ∧
    (song_id ∈ (cat.lives g.target_live_id).song_ids
      → artist_id ∉ (cat.lives g.target_live_id).artist_ids
      → (g.guess_song cat song_id artist_id).2 = 1) := by
  rw [guess_song_snd cat g song_id artist_id h]
  exact ⟨fun hs => by simp [score_feedback, hs],
    fun hs ha => by simp [score_feedback, hs, ha],
    fun hs ha => by simp [score_feedback, hs, ha]⟩

/-- C3 witness: in the concrete session with target `L1`, guessing song
`A` by artist `X` scores 2. -/
theorem guess_song_oracle_witness :
    ("A" : String) ∈ testCat.song_ids ∧
    (testSession.guess_song testCat "A" "X").2 = 2 :=
  ⟨by decide,
    (guess_song_oracle testCat testSession "A" "X" (by decide)).2.1
      (by decide) (by decide)⟩

/-- C4: guessing a song id absent from the catalogue returns the INVALID
sentinel `-1` and leaves the whole session unchanged, and doing it twice
leaves the session unchanged both times. -/
theorem guess_song_invalid_noop (cat : Catalogue) (g : Session) (song_id artist_id : String)
    (h : song_id ∉ cat.song_ids) :
    g.guess_song cat song_id artist_id = (g, -1) ∧
    ((g.guess_song cat song_id artist_id).1.guess_song cat song_id artist_id) = (g, -1) := by
  have h1 : g.guess_song cat song_id artist_id = (g, -1) := by
    simp [Session.guess_song, h]
  exact ⟨h1, by rw [h1]; simp [Session.guess_song, h]⟩

/-- C4 witness: guessing the unknown song id `Z` twice is a no-op. -/
theorem guess_song_invalid_noop_witness :
    testSession.guess_song testCat "Z" "X" = (testSession, -1) ∧
    ((testSession.guess_song testCat "Z" "X").1.guess_song testCat "Z" "X")
      = (testSession, -1) :=
  guess_song_invalid_noop testCat testSession "Z" "X" (by decide)

/-- C7: deserializing a serialized session restores the target live id,
the candidate set, both guessed-id sets and the ordered history exactly. -/
theorem serialize_roundtrip (g : Session) :
    deserialize_game (serialize_game g) = g := by
  cases g
  simp [serialize_game, deserialize_game, Finset.sort_toFinset]

/-- C9: `guess_live` adds the guessed live id to the guessed-live set,
returns `false` on a wrong id and `true` on the target id, and leaves the
candidate set, the guessed-song set, the history and the target unchanged. -/
theorem guess_live_spec (g : Session) (live_id : String) :
    (g.guess_live live_id).1.guessed_live_ids = insert live_id g.guessed_live_ids ∧
    (g.guess_live live_id).1.possible_live_ids = g.possible_live_ids ∧
    (g.guess_live live_id).1.guessed_song_ids = g.guessed_song_ids ∧
    (g.guess_live live_id).1.history = g.history ∧
    (g.guess_live live_id).1.target_live_id = g.target_live_id ∧
    (live_id ≠ g.target_live_id → (g.guess_live live_id).2 = false) ∧
    (live_id = g.target_live_id → (g.guess_live live_id).2 = true) := by
  refine ⟨rfl, rfl, rfl, rfl, rfl, fun h => ?_, fun h => ?_⟩ <;>
    simp [Session.guess_live, h]

/-- C9 witness: guessing `L2` when the target is `L1` returns `false` and
only the guessed-live set changes. -/
theorem guess_live_spec_witness :
    (testSession.guess_live "L2").1.guessed_live_ids
      = insert "L2" testSession.guessed_live_ids ∧
    (testSession.guess_live "L2").1.possible_live_ids = testSession.possible_live_ids ∧
    (testSession.guess_live "L2").2 = false := by
  have h := guess_live_spec testSession "L2"
  exact ⟨h.1, h.2.1, h.2.2.2.2.2.1 (by decide)⟩

/-- C10: `start_game` with a falsy or unknown target argument raises no
error and does not honour the argument: it behaves exactly like
`start_game` with no target, setting the target to the random pick from
the catalogue's live ids and performing the normal reset (candidates = all
live ids, guessed sets and history cleared). -/
theorem start_game_invalid_target (cat : Catalogue) (t : Option String) (rand_pick : String)
    (h : t = none ∨ t = some "" ∨ ∃ tid, t = some tid ∧ tid ∉ cat.live_ids) :
    start_game cat t rand_pick = start_game cat none rand_pick ∧
    (start_game cat t rand_pick).1.target_live_id = rand_pick ∧
    (start_game cat t rand_pick).2 = rand_pick ∧
    (start_game cat t rand_pick).1.possible_live_ids = cat.live_ids.toFinset ∧
    (start_game cat t rand_pick).1.guessed_song_ids = ∅ ∧
    (start_game cat t rand_pick).1.guessed_live_ids = ∅ ∧
    (start_game cat t rand_pick).1.history = [] := by
  have heq : start_game cat t rand_pick = start_game cat none rand_pick := by
    rcases h with rfl | rfl | ⟨tid, rfl, htid⟩
    · rfl
    · simp [start_game]
    · simp [start_game, htid]
  rw [heq]
  exact ⟨rfl, rfl, rfl, rfl, rfl, rfl, rfl⟩

/-- C10 witness: starting with the unknown target id `L9` selects the
random pick `L2` and resets the session. -/
theorem start_game_invalid_target_witness :
    start_game testCat (some "L9") "L2" = start_game testCat none "L2" ∧
    (start_game testCat (some "L9") "L2").1.target_live_id = "L2" ∧
    (start_game testCat (some "L9") "L2").1.possible_live_ids
      = testCat.live_ids.toFinset :=
  have h := start_game_invalid_target testCat (some "L9") "L2"
    (Or.inr (Or.inr ⟨"L9", rfl, by decide⟩))
  ⟨h.1, h.2.1, h.2.2.2.1⟩

/-- C8: for a catalogue song present in the target's setlist,
`guess_song_only` returns `(true, M)` with `M` the live∩song artist
intersection (or the song's own artists when that is empty) and appends
one history entry carrying the first element of `M` and feedback `2`; for
a catalogue song absent from the target it returns `(false, [])` and
appends one entry with the placeholder artist id and feedback `0`; in both
cases the song joins the guessed-song set. -/
theorem guess_song_only_spec (cat : Catalogue) (g : Session) (song_id : String)
    (h : song_id ∈ cat.song_ids) :
    (song_id ∈ (cat.lives g.target_live_id).song_ids →
      (g.guess_song_only cat song_id).2
          = (true, matched_artists cat (cat.lives g.target_live_id) song_id) ∧
      (∀ a M, matched_artists cat (cat.lives g.target_live_id) song_id = a :: M →
        (g.guess_song_only cat song_id).1.history = g.history ++ [(song_id, a, 2)])) ∧
    (song_id ∉ (cat.lives g.target_live_id).song_ids →
      (g.guess_song_only cat song_id).2 = (false, []) ∧
      (g.guess_song_only cat song_id).1.history
        = g.history ++ [(song_id, cat.artist_ids.headD "", 0)]) ∧
    (g.guess_song_only cat song_id).1.guessed_song_ids
      = insert song_id g.guessed_song_ids := by
  refine ⟨fun hs => ?_, fun hs => ?_, ?_⟩
  · refine ⟨by simp [Session.guess_song_only, h, hs], fun a M hM => ?_⟩
    simp [Session.guess_song_only, h, hs, hM]
  · exact ⟨by simp [Session.guess_song_only, h, hs], by simp [Session.guess_song_only, h, hs]⟩
  · by_cases hs : song_id ∈ (cat.lives g.target_live_id).song_ids <;>
      simp [Session.guess_song_only, h, hs]

/-- C8 witness: song `B` is in target `L1`; the matched artists are the
live∩song intersection `["X"]` and the history entry carries `X` with
feedback 2. -/
theorem guess_song_only_spec_witness :
    (testSession.guess_song_only testCat "B").2 = (true, ["X"]) ∧
    (testSession.guess_song_only testCat "B").1.history = [("B", "X", 2)] ∧
    (testSession.guess_song_only testCat "B").1.guessed_song_ids
      = insert "B" testSession.guessed_song_ids := by
  have h := guess_song_only_spec testCat testSession "B" (by decide)
  have hm : matched_artists testCat (testCat.lives testSession.target_live_id) "B"
      = ["X"] := by decide
  refine ⟨?_, ?_, h.2.2⟩
  · rw [(h.1 (by decide)).1, hm]
  · simpa [testSession] using (h.1 (by decide)).2 "X" [] hm

/-! ### Entropy: helper lemmas -/

/-- For a nonnegative probability the positivity guard in the entropy sum
is redundant, because the zero case contributes zero either way. -/
theorem entropy_term_unguard (p : ℝ) (hp : 0 ≤ p) :
    (if 0 < p then -(p * Real.logb 2 p) else 0) = -(p * Real.logb 2 p) := by
  rcases eq_or_lt_of_le hp with h | h
  · simp [← h]
  · simp [h]

/-- Binary entropy in bits, written the way the spec writes it. -/
theorem binEntropy_div_log_two (p : ℝ) :
    Real.binEntropy p / Real.log 2
      = -(p * Real.logb 2 p + (1 - p) * Real.logb 2 (1 - p)) := by
  rw [Real.binEntropy_eq_negMulLog_add_negMulLog_one_sub]
  simp only [Real.negMulLog, Real.logb]
  ring

/-- With more than one candidate, `calculate_entropy` is the binary
entropy (in bits) of the fraction of candidates containing the song. -/
theorem calculate_entropy_eq_binEntropy (cat : Catalogue) (g : Session) (song_id : String)
    (hn : 1 < g.possible_live_ids.card) :
    g.calculate_entropy cat song_id
      = Real.binEntropy ((g.yes_count cat song_id : ℝ) / (g.possible_live_ids.card : ℝ))
          / Real.log 2 := by
  have hyn : g.yes_count cat song_id ≤ g.possible_live_ids.card :=
    Finset.card_filter_le _ _
  have hn0 : (0 : ℝ) < (g.possible_live_ids.card : ℝ) := by
    exact_mod_cast Nat.lt_of_lt_of_le Nat.zero_lt_one hn.le
  simp only [Session.calculate_entropy, Session.yes_count, not_le.2 hn, if_false]
  rw [entropy_term_unguard _ (by positivity), entropy_term_unguard _ (by positivity)]
  have hsub : ((g.possible_live_ids.card - (g.possible_live_ids.filter
        (fun lid => song_id ∈ (cat.lives lid).song_ids)).card : ℕ) : ℝ)
      = (g.possible_live_ids.card : ℝ) - ((g.possible_live_ids.filter
        (fun lid => song_id ∈ (cat.lives lid).song_ids)).card : ℝ) :=
    Nat.cast_sub hyn
  rw [hsub]
  have hq : ((g.possible_live_ids.card : ℝ) - ((g.possible_live_ids.filter
        (fun lid => song_id ∈ (cat.lives lid).song_ids)).card : ℝ))
        / (g.possible_live_ids.card : ℝ)
      = 1 - ((g.possible_live_ids.filter
        (fun lid => song_id ∈ (cat.lives lid).song_ids)).card : ℝ)
        / (g.possible_live_ids.card : ℝ) := by
    field_simp
  rw [hq, Real.binEntropy_eq_negMulLog_add_negMulLog_one_sub]
  simp only [Real.negMulLog, Real.logb]
  ring

/-- C5: `calculate_entropy` is 0 when at most one candidate remains, is
the binary entropy of `p = yes/n` (with the `0·log2 0 = 0` convention)
when more than one remains, always lies in `[0, 1]`, and vanishes when
the song appears in none or in all of the candidate lives. -/
theorem calculate_entropy_spec (cat : Catalogue) (g : Session) (song_id : String) :
    0 ≤ g.calculate_entropy cat song_id ∧
    g.calculate_entropy cat song_id ≤ 1 ∧
    (g.possible_live_ids.card ≤ 1 → g.calculate_entropy cat song_id = 0) ∧
    (1 < g.possible_live_ids.card →
      g.calculate_entropy cat song_id
        = -(((g.yes_count cat song_id : ℝ) / (g.possible_live_ids.card : ℝ))
              * Real.logb 2
                ((g.yes_count cat song_id : ℝ) / (g.possible_live_ids.card : ℝ))
            + (1 - (g.yes_count cat song_id : ℝ) / (g.possible_live_ids.card : ℝ))
              * Real.logb 2
                (1 - (g.yes_count cat song_id : ℝ) / (g.possible_live_ids.card : ℝ)))) ∧
    ((g.yes_count cat song_id = 0 ∨ g.yes_count cat song_id = g.possible_live_ids.card)
      → g.calculate_entropy cat song_id = 0) := by
  by_cases hn : g.possible_live_ids.card ≤ 1
  · have h0 : g.calculate_entropy cat song_id = 0 := by
      simp [Session.calculate_entropy, hn]
    rw [h0]
    exact ⟨le_refl 0, zero_le_one, fun _ => rfl,
      fun hn' => absurd hn' (not_lt.2 hn), fun _ => rfl⟩
  · push_neg at hn
    have hyn : g.yes_count cat song_id ≤ g.possible_live_ids.card :=
      Finset.card_filter_le _ _
    have hn0 : (0 : ℝ) < (g.possible_live_ids.card : ℝ) := by
      exact_mod_cast Nat.lt_of_lt_of_le Nat.zero_lt_one hn.le
    have hbe := calculate_entropy_eq_binEntropy cat g song_id hn
    have hp0 : 0 ≤ (g.yes_count cat song_id : ℝ) / (g.possible_live_ids.card : ℝ) := by
      positivity
    have hp1 : (g.yes_count cat song_id : ℝ) / (g.possible_live_ids.card : ℝ) ≤ 1 := by
      rw [div_le_one hn0]
      exact_mod_cast hyn
    have hlog2 : 0 < Real.log 2 := Real.log_pos (by norm_num)
    refine ⟨?_, ?_, fun h => absurd h (not_le.2 hn), fun _ => ?_, fun hy => ?_⟩
    · rw [hbe]
      exact div_nonneg (Real.binEntropy_nonneg hp0 hp1) hlog2.le
    · rw [hbe]
      rw [div_le_one hlog2]
      exact Real.binEntropy_le_log_two
    · rw [hbe, binEntropy_div_log_two]
    · rw [hbe]
      rcases hy with hy | hy
      · rw [hy]
        simp
      · rw [hy, div_self (ne_of_gt hn0)]
        simp

/-- C5 witness: the song id `Z` appears in no candidate live of the
concrete session, so its entropy is 0, which is within the bounds. -/
theorem calculate_entropy_spec_witness :
    testSession.yes_count testCat "Z" = 0 ∧
    testSession.calculate_entropy testCat "Z" = 0 ∧
    0 ≤ testSession.calculate_entropy testCat "Z" :=
  ⟨by decide,
    (calculate_entropy_spec testCat testSession "Z").2.2.2.2 (Or.inl (by decide)),
    (calculate_entropy_spec testCat testSession "Z").1⟩

/-- C6: `get_best_moves` returns at most `top_k` pairs; every listed song
is in some candidate live's setlist and not yet guessed, and its listed
score is its current entropy; the scores are non-increasing; and no
relevant unguessed song that was left unlisted has entropy strictly above
any listed score. -/
theorem get_best_moves_spec (cat : Catalogue) (g : Session) (top_k : ℕ) :
    (g.get_best_moves cat top_k).length ≤ top_k ∧
    (∀ sid sc, (sid, sc) ∈ g.get_best_moves cat top_k →
      (∃ lid ∈ g.possible_live_ids, sid ∈ (cat.lives lid).song_ids) ∧
      sid ∉ g.guessed_song_ids ∧
      sc = g.calculate_entropy cat sid) ∧
    (g.get_best_moves cat top_k).Sorted moveLE ∧
    (∀ sid, (∃ lid ∈ g.possible_live_ids, sid ∈ (cat.lives lid).song_ids) →
      sid ∉ g.guessed_song_ids →
      (∀ sc, (sid, sc) ∉ g.get_best_moves cat top_k) →
      ∀ t tc, (t, tc) ∈ g.get_best_moves cat top_k →
        g.calculate_entropy cat sid ≤ tc) := by
  classical
  have hres : g.get_best_moves cat top_k
      = (((((g.relevant_songs cat).filter
            (fun sid => sid ∉ g.guessed_song_ids)).sort (· ≤ ·)).map
          (fun sid => (sid, g.calculate_entropy cat sid))).insertionSort moveLE).take top_k :=
    rfl
  rw [hres]
  set S : List String := (((g.relevant_songs cat).filter
      (fun sid => sid ∉ g.guessed_song_ids)).sort (· ≤ ·)) with hS
  set base : List (String × ℝ) :=
    S.map (fun sid => (sid, g.calculate_entropy cat sid)) with hbase
  set l : List (String × ℝ) := base.insertionSort moveLE with hl
  have hperm : l.Perm base := List.perm_insertionSort moveLE base
  have hsorted : l.Sorted moveLE := List.sorted_insertionSort moveLE base
  have hmemS : ∀ sid, sid ∈ S ↔
      ((∃ lid ∈ g.possible_live_ids, sid ∈ (cat.lives lid).song_ids)
        ∧ sid ∉ g.guessed_song_ids) := by
    intro sid
    rw [hS, Finset.mem_sort, Finset.mem_filter]
    simp [Session.relevant_songs]
  have hmem_l : ∀ sid sc, ((sid, sc) ∈ l ↔ sid ∈ S ∧ sc = g.calculate_entropy cat sid) := by
    intro sid sc
    rw [hperm.mem_iff, hbase, List.mem_map]
    constructor
    · rintro ⟨x, hxS, hx⟩
      rw [Prod.mk.injEq] at hx
      obtain ⟨rfl, h2⟩ := hx
      exact ⟨hxS, h2.symm⟩
    · rintro ⟨hS1, rfl⟩
      exact ⟨sid, hS1, rfl⟩
  refine ⟨?_, ?_, ?_, ?_⟩
  · rw [List.length_take]
    exact min_le_left _ _
  · intro sid sc hmem
    have hl' : (sid, sc) ∈ l := (List.take_sublist _ _).subset hmem
    obtain ⟨hS1, hsc⟩ := (hmem_l sid sc).1 hl'
    obtain ⟨hrel, hg⟩ := (hmemS sid).1 hS1
    exact ⟨hrel, hg, hsc⟩
  · exact hsorted.sublist (List.take_sublist _ _)
  · intro sid hrel hg hnot t tc htin
    have hSmem : sid ∈ S := (hmemS sid).2 ⟨hrel, hg⟩
    have hin_l : (sid, g.calculate_entropy cat sid) ∈ l :=
      (hmem_l sid _).2 ⟨hSmem, rfl⟩
    have hsplit : (sid, g.calculate_entropy cat sid) ∈ l.take top_k
        ∨ (sid, g.calculate_entropy cat sid) ∈ l.drop top_k := by
      rw [← List.take_append_drop top_k l] at hin_l
      exact List.mem_append.1 hin_l
    rcases hsplit with htake | hdrop
    · exact absurd htake (hnot _)
    · have hpair : List.Pairwise moveLE (l.take top_k ++ l.drop top_k) := by
        rw [List.take_append_drop]
        exact hsorted
      exact (List.pairwise_append.1 hpair).2.2 (t, tc) htin
        (sid, g.calculate_entropy cat sid) hdrop

/-- C6 witness: the concrete session's move list has at most 2 entries
and is sorted, and its entries are relevant unguessed songs. -/
theorem get_best_moves_spec_witness :
    (testSession.get_best_moves testCat 2).length ≤ 2 ∧
    (testSession.get_best_moves testCat 2).Sorted moveLE :=
  ⟨(get_best_moves_spec testCat testSession 2).1,
    (get_best_moves_spec testCat testSession 2).2.2.1⟩

end TheSorter
